import Mathlib

/-!
Verification development for the netrunner/covalence server: a shallow
embedding of the request validator (`requests/generate.go`), the firewall
hook and stub classifier (`hook` package, `src/firewall/malicious_intent`),
the firewall configuration (`firewall` package), and the audit store with
trace reconstruction (`src/audit/audit.go` over the sqlc row model in
`src/db/postgres/sqlc/models.go`).

Conventions of the embedding:
- Go `interface{}` values destined for `json.Marshal` are modelled by
  `GoVal`; the `unsupported` constructor stands for values Go cannot encode
  (channels, functions, NaN floats), on which `json.Marshal` errors.
- Serialized JSON blobs (`[]byte` columns) are modelled by `Json` values;
  a nullable blob is `Option Json`, with `none` standing for nil/empty
  bytes (SQL NULL), on which `json.Unmarshal` errors with
  "unexpected end of JSON input".
- Go error values are modelled as `Except String`; only the constant part
  of each `fmt.Errorf` format string is kept (wrapped causes are elided).
- `float64`/`float32` quantities (risk scores, thresholds, temperatures,
  JSON numbers) are modelled as `Rat`; no claim depends on floating-point
  rounding.
- Mutation of the database is modelled by explicit state passing: each
  write returns the resulting `DB` alongside its `Except` result.
-/

namespace Netrunner

/-- A JSON document, as stored in the audit tables.  Go decodes objects into
`map[string]interface{}`; the embedding keeps object fields as an ordered
association list (Go's key sorting on encode does not matter to any claim,
since blobs are only ever compared with their own decode). -/
inductive Json where
  | null : Json
  | bool (b : Bool) : Json
  | num (q : Rat) : Json
  | str (s : String) : Json
  | arr (elems : List Json) : Json
  | obj (fields : List (String × Json)) : Json

/-- A Go `interface{}` value handed to `json.Marshal`.  `unsupported` stands
for a value with no JSON encoding (channel, function, NaN float): marshalling
it is the only way `json.Marshal` fails in the source's call sites. -/
inductive GoVal where
  | null : GoVal
  | bool (b : Bool) : GoVal
  | num (q : Rat) : GoVal
  | str (s : String) : GoVal
  | arr (elems : List GoVal) : GoVal
  | obj (fields : List (String × GoVal)) : GoVal
  | unsupported : GoVal

mutual

/-- `json.Marshal` on one `interface{}` value: succeeds with the structural
JSON document unless an unsupported value occurs somewhere inside. -/
def marshalVal : GoVal → Option Json
  | .null => some .null
  | .bool b => some (.bool b)
  | .num q => some (.num q)
  | .str s => some (.str s)
  | .arr l => (marshalValList l).map Json.arr
  | .obj l => (marshalValFields l).map Json.obj
  | .unsupported => none

def marshalValList : List GoVal → Option (List Json)
  | [] => some []
  | v :: vs =>
    match marshalVal v with
    | none => none
    | some j => (marshalValList vs).map (j :: ·)

def marshalValFields : List (String × GoVal) → Option (List (String × Json))
  | [] => some []
  | (k, v) :: vs =>
    match marshalVal v with
    | none => none
    | some j => (marshalValFields vs).map ((k, j) :: ·)

end

/-- `json.Marshal` of a Go `map[string]interface{}` (a nil map encodes as
`null`; the embedding does not distinguish nil from empty maps, which no
claim observes). -/
def marshalMap (m : List (String × GoVal)) : Option Json :=
  (marshalValFields m).map Json.obj

/-- `json.Unmarshal(blob, &m)` for `m : map[string]interface{}`, on a blob
that is well-formed JSON: `null` leaves the map nil (success, empty map),
an object yields its fields, and any other document is a type error. -/
def unmarshalMapJ : Json → Option (List (String × Json))
  | .null => some []
  | .obj l => some l
  | _ => none

/-- `json.Unmarshal(blob, &m)` on a nullable blob: nil/empty bytes (a SQL
NULL column scanned into `[]byte`) fail with "unexpected end of JSON input". -/
def unmarshalMapB : Option Json → Option (List (String × Json))
  | none => none
  | some j => unmarshalMapJ j

/-- The sixteen lowercase hexadecimal digit characters: the decimal digits
followed by the first six lowercase letters. -/
def hexDigitChars : List Char :=
  (List.range 10).map (fun d => Char.ofNat (48 + d)) ++
  (List.range 6).map (fun d => Char.ofNat (97 + d))

/-- Hex digit character for `n % 16`. -/
def hexChar (n : Nat) : Char := hexDigitChars.getD (n % 16) '0'

/-- Is `c` a hexadecimal digit (as accepted by `pgtype.UUID.Scan`)?
Both lowercase and uppercase letters are accepted. -/
def isHexChar (c : Char) : Bool :=
  hexDigitChars.contains c ||
  ((List.range 6).map (fun d => Char.ofNat (65 + d))).contains c

/-- The hyphen separator of hyphenated UUID strings. -/
def dashChar : Char := '-'

/-- Shape check of `pgtype.UUID.Scan` on a string: exactly 36 characters,
hyphens at offsets 8, 13, 18 and 23, hex digits elsewhere. -/
def uuidShape : List Char → Bool
  | u0 :: u1 :: u2 :: u3 :: u4 :: u5 :: u6 :: u7 :: d0 ::
    u8 :: u9 :: u10 :: u11 :: d1 ::
    u12 :: u13 :: u14 :: u15 :: d2 ::
    u16 :: u17 :: u18 :: u19 :: d3 :: rest =>
    match rest with
    | [u20, u21, u22, u23, u24, u25, u26, u27, u28, u29, u30, u31] =>
      (d0 = dashChar && d1 = dashChar && d2 = dashChar && d3 = dashChar) &&
      [u0, u1, u2, u3, u4, u5, u6, u7, u8, u9, u10, u11, u12, u13, u14, u15,
       u16, u17, u18, u19, u20, u21, u22, u23, u24, u25, u26, u27, u28, u29,
       u30, u31].all isHexChar
    | _ => false
  | _ => false

/-- `pgtype.UUID.Scan` on a string source: succeeds exactly on 36-character
hyphenated UUID strings (the scanned value is kept as the string itself;
pgx's byte-level representation is not observed by any claim). -/
def pgUUIDScan (s : String) : Option String :=
  if uuidShape s.toList then some s else none

/-- First 24 characters of the UUIDs generated by the model: three zero
groups and their separators. -/
def uuidHead : List Char :=
  ['0', '0', '0', '0', '0', '0', '0', '0', '-',
   '0', '0', '0', '0', '-',
   '0', '0', '0', '0', '-',
   '0', '0', '0', '0', '-']

/-- Twelve-digit hexadecimal rendering of `n` (low 48 bits). -/
def hexPad12 (n : Nat) : List Char :=
  [hexChar (n / 16 ^ 11), hexChar (n / 16 ^ 10), hexChar (n / 16 ^ 9),
   hexChar (n / 16 ^ 8), hexChar (n / 16 ^ 7), hexChar (n / 16 ^ 6),
   hexChar (n / 16 ^ 5), hexChar (n / 16 ^ 4), hexChar (n / 16 ^ 3),
   hexChar (n / 16 ^ 2), hexChar (n / 16), hexChar n]

/-- Modelled from the spec: the database-side generator of fresh correlation
ids (`request_id` defaults to a generated UUID; the SQL schema and the
generated query layer are not in src).  The model derives the fresh UUID
deterministically from the store's insertion counter; uniqueness against the
existing rows is stated as a hypothesis where a claim needs it, mirroring
the database's uniqueness guarantee. -/
def genUUID (n : Nat) : String := String.mk (uuidHead ++ hexPad12 n)

theorem isHexChar_hexChar (n : Nat) : isHexChar (hexChar n) = true := by
  have h : n % 16 < 16 := Nat.mod_lt _ (by norm_num)
  unfold hexChar
  generalize hk : n % 16 = k at h
  interval_cases k <;> decide

theorem pgUUIDScan_genUUID (n : Nat) : pgUUIDScan (genUUID n) = some (genUUID n) := by
  have h : uuidShape (genUUID n).data = true := by
    show uuidShape (uuidHead ++ hexPad12 n) = true
    simp only [uuidHead, hexPad12, List.cons_append, List.nil_append, uuidShape,
      List.all_cons, List.all_nil, isHexChar_hexChar]
    decide
  simp [pgUUIDScan, h]

namespace types

/-- `types.Message` (one chat turn).  The `types` package is not in src; the
fields are the ones the sources use: `Role` and `Content`, with unrecognized
extra fields preserved opaquely. -/
structure Message where
  role : String := ""
  content : String := ""
  extra : List (String × Json) := []

end types

namespace internal

/-- `internal.Model`, the descriptor of a backing classifier model.  The
`internal` package is not in src; the sources only pass the value around, so
a single opaque name field suffices. -/
structure Model where
  name : String := ""

end internal

namespace model

/-- The registry's model info record (`model.Info` /
`registry.GetInfo` result); only carried, never inspected, by the sources. -/
structure Info where
  name : String := ""
  url : String := ""

/-- `model.GeneratePayload` / `user.GeneratePayload`: the validated request.
The two Go prototype trees declare structurally identical payload types; the
embedding uses one. -/
structure GeneratePayload where
  model : Info := {}
  isStreaming : Bool := false
  maxTokens : Option Int := none
  temperature : Option Rat := none
  messages : List types.Message := []

end model

namespace hook

/-- `hook.checkMessage`: the message check of the firewall hook, stubbed to
the constant `false` in the source. -/
def checkMessage (_message : types.Message) : Bool :=
  false

/-- `hook.Firewall(c, payload)`: the pre-forwarding firewall hook.  It reads
`payload.Messages[len(payload.Messages)-1]` with no bounds check; on an
empty message list Go panics with an index-out-of-range runtime error,
modelled as `none`.  Otherwise it returns the HTTP status and the error
(`some reason`) handed to the caller.  The `gin.Context` argument is unused
by the source and omitted. -/
def Firewall (payload : model.GeneratePayload) : Option (Nat × Option String) :=
  match payload.messages.getLast? with
  | none => none
  | some latest =>
    if !checkMessage latest then
      some (403, some "request rejected: blocked by firewall")
    else
      some (200, none)

end hook

namespace maliciousIntent

/-- `maliciousIntent.Run(message, model, blockingThreshold)`: the
malicious-intent classifier invocation, stubbed in the source to return
`(true, nil)` — it binds `message.Content` only for a log line and ignores
both the model and the blocking threshold. -/
def Run (_message : types.Message) (_model : internal.Model)
    (_blockingThreshold : Rat) : Bool × Option String :=
  (true, none)

end maliciousIntent

namespace firewall

/-- `firewall.Firewall`: one configured firewall policy entry. -/
structure Firewall where
  enabled : Bool
  type : String
  model : internal.Model
  blockingThreshold : Rat

/-- `firewall.Config`: the ordered list of configured firewalls. -/
structure Config where
  firewalls : List Firewall := []

end firewall

namespace requests

/-- `requests.GenerateRequest`: the raw inbound JSON request.  Go's `*int`
and `*float32` optional fields become `Option`; the untyped
`[]interface{}` messages become `List GoVal`. -/
structure GenerateRequest where
  name : String := ""
  isStreaming : Bool := false
  maxTokens : Option Int := none
  temperature : Option Rat := none
  messages : List GoVal := []

/-- The collaborator functions `ParseGenerateRequest` calls: `types.NewName`,
`registry.GetInfo`, `types.NewMaxTokens`, `types.NewTemperature` and
`types.NewMessageFromJson` all live in packages absent from src, so the
embedding takes them as opaque parameters; the claims hold for every
instantiation. -/
structure Collaborators where
  newName : String → Except String String
  getInfo : String → Option model.Info
  newMaxTokens : Int → Except String Int
  newTemperature : Rat → Except String Rat
  newMessageFromJson : GoVal → Except String types.Message

/-- The per-message validation loop of `ParseGenerateRequest`: appends one
validated message per raw message, stopping at the first failure. -/
def parseMessages (f : GoVal → Except String types.Message) :
    List GoVal → Except String (List types.Message)
  | [] => .ok []
  | m :: ms =>
    match f m with
    | .error e => .error e
    | .ok msg => (parseMessages f ms).map (msg :: ·)

/-- `requests.ParseGenerateRequest`: validates the raw request into a
`GeneratePayload`, in source order: model name, registry lookup, optional
max-tokens, optional temperature, non-empty messages array, then each
message. -/
def ParseGenerateRequest (c : Collaborators) (generateRequest : GenerateRequest) :
    Except String model.GeneratePayload :=
  match c.newName generateRequest.name with
  | .error e => .error e
  | .ok name =>
    match c.getInfo name with
    | none => .error "model not found"
    | some modelInfo =>
      let payload : model.GeneratePayload :=
        { model := modelInfo, isStreaming := generateRequest.isStreaming }
      let withMax : Except String model.GeneratePayload :=
        match generateRequest.maxTokens with
        | none => .ok payload
        | some mt =>
          match c.newMaxTokens mt with
          | .error e => .error e
          | .ok maxTokens => .ok { payload with maxTokens := some maxTokens }
      match withMax with
      | .error e => .error e
      | .ok payload1 =>
        let withTemp : Except String model.GeneratePayload :=
          match generateRequest.temperature with
          | none => .ok payload1
          | some t =>
            match c.newTemperature t with
            | .error e => .error e
            | .ok temp => .ok { payload1 with temperature := some temp }
        match withTemp with
        | .error e => .error e
        | .ok payload2 =>
          if generateRequest.messages.isEmpty then
            .error "messages must be a non-empty array"
          else
            match parseMessages c.newMessageFromJson generateRequest.messages with
            | .error e => .error e
            | .ok messagesArray => .ok { payload2 with messages := messagesArray }

end requests

namespace audit

/-- `pgtype.Numeric` as stored in the `risk_score` column: SQL NULL
(`Valid = false`), a finite decimal, or a stored value on which
`Float64Value` errors (`bad`, e.g. an out-of-range exponent) — the last is
reachable only through data corruption, never through the write path. -/
inductive PgNumeric where
  | null : PgNumeric
  | bad : PgNumeric
  | val (q : Rat) : PgNumeric

/-- The `Valid` flag of a `pgtype.Numeric`. -/
def PgNumeric.isValid : PgNumeric → Bool
  | .null => false
  | _ => true

/-- `pgtype.Numeric.Float64Value`: a NULL numeric yields the zero float with
no error, a finite value converts, and a `bad` value errors. -/
def PgNumeric.float64Value : PgNumeric → Option Rat
  | .null => some 0
  | .bad => none
  | .val q => some q

/-- One row of `request_log` (sqlc model `RequestLog`).  `userID` and
`apiKeyID` are NULL when the corresponding `pgtype.UUID.Scan` failed (the
write path ignores those scan errors); `inputs` holds one JSON blob per
message; `clientIp` is the optional parsed address, kept in its string
form. -/
structure RequestRow where
  requestID : String
  userID : Option String := none
  apiKeyID : Option String := none
  model : String := ""
  targetUrl : String := ""
  inputs : List Json := []
  parameters : Json := .null
  clientIp : Option String := none

/-- One row of `response_log` (sqlc model `ResponseLog`). -/
structure ResponseRow where
  requestID : String
  response : Json := .null
  latencyMs : Int := 0

/-- One row of `firewall_event` (sqlc model `FirewallEvent`). -/
structure FirewallEventRow where
  requestID : String
  firewallID : String := ""
  firewallType : String := ""
  blocked : Bool := false
  blockedReason : String := ""
  riskScore : PgNumeric := .null

/-- The audit database state: the three append-only tables plus the
insertion counter that feeds the correlation-id generator. -/
structure DB where
  requests : List RequestRow := []
  responses : List ResponseRow := []
  events : List FirewallEventRow := []
  nextID : Nat := 0

/-- `audit.Request`: the in-memory argument of `LogRequest`.  Each input is
a Go `map[string]interface{}`. -/
structure Request where
  userID : String := ""
  apiKeyID : String := ""
  model : String := ""
  targetURL : String := ""
  inputs : List (List (String × GoVal)) := []
  parameters : List (String × GoVal) := []
  clientIP : String := ""

/-- `audit.Response`: the in-memory argument of `LogResponse`. -/
structure Response where
  requestID : String := ""
  response : List (String × GoVal) := []
  latencyMs : Int := 0

/-- `audit.FirewallEvent`: one firewall assessment, both as the argument of
`LogFirewallEvent` and as an element of `Trace.FirewallInfo`. -/
structure FirewallEvent where
  requestID : String := ""
  firewallID : String := ""
  firewallType : String := ""
  blocked : Bool := false
  blockedReason : String := ""
  riskScore : Rat := 0

/-- `audit.Trace`: the reconstructed read-only view returned by
`GetTrace`. -/
structure Trace where
  requestID : String := ""
  userID : String := ""
  model : String := ""
  inputs : List (List (String × Json)) := []
  response : List (String × Json) := []
  requestParameters : List (String × Json) := []
  firewallInfo : List FirewallEvent := []
  clientIP : String := ""
  riskScore : Rat := 0
  blocked : Bool := false
  blockedReason : String := ""

/-- The serialization loop of `LogRequest`: marshals each input map to its
own JSON blob, stopping at the first `json.Marshal` failure. -/
def marshalInputs : List (List (String × GoVal)) → Option (List Json)
  | [] => some []
  | m :: ms =>
    match marshalMap m with
    | none => none
    | some blob => (marshalInputs ms).map (blob :: ·)

/-- `audit.LogRequest(ctx, r, db)`: serializes each message independently,
serializes the parameters, parses the client IP when supplied, scans the
user and api-key UUIDs (ignoring their scan errors, which leave a NULL
column), and then performs the single `InsertRequestLog`.  `parseAddr`
stands for `netip.ParseAddr`, whose implementation is outside src.  The
returned `DB` is the state after the call: unchanged on every error path,
extended by exactly one `request_log` row on success. -/
def LogRequest (parseAddr : String → Option String) (db : DB) (r : Request) :
    Except String String × DB :=
  match marshalInputs r.inputs with
  | none => (.error "invalid messages", db)
  | some inputBlobs =>
    match marshalMap r.parameters with
    | none => (.error "invalid parameters", db)
    | some paramsBlob =>
      let clientIp : Except String (Option String) :=
        if r.clientIP = "" then .ok none
        else
          match parseAddr r.clientIP with
          | none => .error "invalid IP"
          | some ip => .ok (some ip)
      match clientIp with
      | .error e => (.error e, db)
      | .ok cip =>
        let rid := genUUID db.nextID
        let row : RequestRow :=
          { requestID := rid
            userID := pgUUIDScan r.userID
            apiKeyID := pgUUIDScan r.apiKeyID
            model := r.model
            targetUrl := r.targetURL
            inputs := inputBlobs
            parameters := paramsBlob
            clientIp := cip }
        (.ok rid, { db with requests := db.requests ++ [row], nextID := db.nextID + 1 })

/-- `audit.LogResponse(ctx, r, db)`: scans the request UUID (error ignored —
an unscannable id becomes a NULL reference), serializes the response body,
and performs the single `InsertResponseLog`.  The foreign-key constraint of
`response_log.request_id` is modelled from the spec's referential invariant
(the SQL schema is not in src): inserting against a missing or NULL request
id fails and writes nothing. -/
def LogResponse (db : DB) (r : Response) : Except String Unit × DB :=
  match marshalMap r.response with
  | none => (.error "invalid response", db)
  | some responseBlob =>
    match pgUUIDScan r.requestID with
    | none => (.error "violates foreign key constraint", db)
    | some rid =>
      if db.requests.any (fun q => q.requestID == rid) then
        (.ok (), { db with responses :=
          db.responses ++ [{ requestID := rid, response := responseBlob, latencyMs := r.latencyMs }] })
      else
        (.error "violates foreign key constraint", db)

/-- `audit.LogFirewallEvent(ctx, fe, db)`: scans the request UUID (this scan
error is checked), the blocked flag and reason (those scans cannot fail for
a `bool`/`string` source), and the risk score via
`fmt.Sprintf("%f") + pgtype.Numeric.Scan`, which accepts every finite value
— the source performs no [0,1] range validation.  The six-decimal rounding
of `%f` is not modelled (no claim observes stored precision).  The
foreign-key constraint is modelled from the spec as in `LogResponse`. -/
def LogFirewallEvent (db : DB) (fe : FirewallEvent) : Except String Unit × DB :=
  match pgUUIDScan fe.requestID with
  | none => (.error "invalid request ID", db)
  | some rid =>
    if db.requests.any (fun q => q.requestID == rid) then
      (.ok (), { db with events := db.events ++
        [{ requestID := rid
           firewallID := fe.firewallID
           firewallType := fe.firewallType
           blocked := fe.blocked
           blockedReason := fe.blockedReason
           riskScore := .val fe.riskScore }] })
    else
      (.error "violates foreign key constraint", db)

/-- One row of the `GetRequestFullTrace` join result
(sqlc row `GetRequestFullTraceRow`): request columns, nullable response
columns, and nullable firewall-event columns. -/
structure TraceRow where
  requestID : String
  userID : Option String := none
  model : String := ""
  inputs : List Json := []
  parameters : Json := .null
  clientIp : Option String := none
  response : Option Json := none
  firewallID : Option String := none
  firewallType : Option String := none
  blocked : Bool := false
  blockedReason : String := ""
  riskScore : PgNumeric := .null

/-- One joined row for request `q`, optional response `resp`, and optional
firewall event `ev`; absent sides contribute NULL columns (`pgtype`
zero values: `false`, `""`, invalid numeric). -/
def joinRow (q : RequestRow) (resp : Option ResponseRow)
    (ev : Option FirewallEventRow) : TraceRow :=
  { requestID := q.requestID
    userID := q.userID
    model := q.model
    inputs := q.inputs
    parameters := q.parameters
    clientIp := q.clientIp
    response := resp.map (·.response)
    firewallID := ev.map (·.firewallID)
    firewallType := ev.map (·.firewallType)
    blocked := (ev.map (·.blocked)).getD false
    blockedReason := (ev.map (·.blockedReason)).getD ""
    riskScore := (ev.map (·.riskScore)).getD .null }

/-- Modelled from the spec: the generated SQL query `GetRequestFullTrace` is
not in src.  Following the spec's trace-reconstruction algorithm and
conceptual schema, it left-joins `request_log` with `response_log` and
`firewall_event` on the correlation id: no matching request gives zero rows;
a request with no firewall events gives one row with NULL event columns; a
request with events gives one row per event, ordered by evaluated-at
ascending, which in this model is insertion order.  A missing response
contributes NULL response columns, scanned into a nil `[]byte`. -/
def getRequestFullTrace (db : DB) (rid : String) : List TraceRow :=
  match db.requests.find? (fun q => q.requestID == rid) with
  | none => []
  | some q =>
    let resp := db.responses.find? (fun s => s.requestID == rid)
    match db.events.filter (fun e => e.requestID == rid) with
    | [] => [joinRow q resp none]
    | evs => evs.map (fun e => joinRow q resp (some e))

/-- The input-decoding loop of `GetTrace`: unmarshals each stored message
blob into a map, failing the whole trace on the first undecodable blob. -/
def decodeInputs : List Json → Except String (List (List (String × Json)))
  | [] => .ok []
  | blob :: blobs =>
    match unmarshalMapJ blob with
    | none => .error "invalid messages"
    | some msg => (decodeInputs blobs).map (msg :: ·)

/-- The firewall-event accumulation loop of `GetTrace`: keeps the rows whose
`firewall_id` is non-NULL, converting each risk score and failing the whole
trace if a conversion errors. -/
def buildEvents : List TraceRow → Except String (List FirewallEvent)
  | [] => .ok []
  | r :: rs =>
    match r.firewallID with
    | none => buildEvents rs
    | some fid =>
      match r.riskScore.float64Value with
      | none => .error "invalid risk score"
      | some q =>
        (buildEvents rs).map (fun es =>
          { requestID := r.requestID
            firewallID := fid
            firewallType := r.firewallType.getD ""
            blocked := r.blocked
            blockedReason := r.blockedReason
            riskScore := q } :: es)

/-- The top-level risk-score step of `GetTrace`: the score is converted only
when the column is valid (non-NULL), failing the trace if the conversion
errors; a NULL score leaves the zero default. -/
def topRiskScore (n : PgNumeric) : Except String Rat :=
  if n.isValid then
    match n.float64Value with
    | none => .error "invalid risk score"
    | some q => .ok q
  else .ok 0

/-- The trace-assembly phase of `GetTrace`, operating on the fetched join
rows: fails with "request not found" on zero rows; takes the scalar fields
from the first row; decodes parameters ignoring the error (a failed decode
leaves the nil map, i.e. the empty mapping); decodes each input blob and the
response blob, failing on error; converts the first row's risk score when
valid, failing on error; accumulates the firewall events. -/
def assembleTrace : List TraceRow → Except String Trace
  | [] => .error "request not found"
  | row :: rest =>
    match decodeInputs row.inputs with
    | .error e => .error e
    | .ok inputs =>
      match unmarshalMapB row.response with
      | none => .error "invalid response"
      | some response =>
        match topRiskScore row.riskScore with
        | .error e => .error e
        | .ok riskScore =>
          match buildEvents (row :: rest) with
          | .error e => .error e
          | .ok events =>
            .ok { requestID := row.requestID
                  userID := row.userID.getD ""
                  model := row.model
                  inputs := inputs
                  response := response
                  requestParameters := (unmarshalMapJ row.parameters).getD []
                  firewallInfo := events
                  clientIP := row.clientIp.getD ""
                  riskScore := riskScore
                  blocked := row.blocked
                  blockedReason := row.blockedReason }

/-- `audit.GetTrace(ctx, requestID, db)`: scans the correlation id (the scan
error is ignored — an unscannable id queries as the NULL/zero UUID and
matches no row), fetches the join rows, and assembles the trace. -/
def GetTrace (db : DB) (requestID : String) : Except String Trace :=
  let rid := (pgUUIDScan requestID).getD ""
  assembleTrace (getRequestFullTrace db rid)

end audit

/-! Concrete example values, used by the closed evaluation theorems and the
witnesses of the hypothesis-carrying theorems. -/

/-- A `netip.ParseAddr` stand-in that accepts nothing; the examples below
carry no client IP, so it is never consulted. -/
def paNone : String → Option String := fun _ => none

/-- A `netip.ParseAddr` stand-in that accepts only the loopback address. -/
def paLoopback : String → Option String :=
  fun s => if s = "127.0.0.1" then some "127.0.0.1" else none

/-- Concrete collaborator functions for the validator: every name is valid,
every model known, every bound accepted, every message well-formed. -/
def collabOk : requests.Collaborators :=
  { newName := fun s => .ok s
    getInfo := fun _ => some {}
    newMaxTokens := fun n => .ok n
    newTemperature := fun t => .ok t
    newMessageFromJson := fun _ => .ok {} }

/-- A concrete raw generate request with one message. -/
def genReq1 : requests.GenerateRequest :=
  { name := "gpt-4"
    messages := [GoVal.obj [("role", .str "user"), ("content", .str "hi")]] }

/-- The payload `collabOk` validates `genReq1` into. -/
def payload1 : model.GeneratePayload :=
  { model := {}, messages := [{}] }

/-- A payload with one message, as produced by the validator. -/
def payloadHi : model.GeneratePayload :=
  { messages := [{ role := "user", content := "hi" }] }

/-- A second payload with different content, for the constancy theorem. -/
def payloadBye : model.GeneratePayload :=
  { messages := [{ role := "user", content := "bye" }] }

/-- A raw generate request with an empty messages array. -/
def genReqEmpty : requests.GenerateRequest :=
  { name := "gpt-4", messages := [] }

/-- A stored request-log row, as `LogRequest` would create it for a `gpt-4`
request with one message and one parameter. -/
def reqRow1 : audit.RequestRow :=
  { requestID := genUUID 0
    model := "gpt-4"
    inputs := [Json.obj [("role", .str "user"), ("content", .str "hi")]]
    parameters := Json.obj [("temperature", .num 1)] }

/-- A store holding one logged request and nothing else: no response row,
no firewall events. -/
def dbWithReq : audit.DB := { requests := [reqRow1], nextID := 1 }

/-- A concrete audit request: `gpt-4`, one message, one parameter, no
client IP. -/
def reqA : audit.Request :=
  { model := "gpt-4"
    inputs := [[("role", GoVal.str "user"), ("content", GoVal.str "hi")]]
    parameters := [("temperature", GoVal.num 1)] }

/-- An audit request whose first message contains a value `json.Marshal`
cannot encode. -/
def reqBadInput : audit.Request :=
  { model := "gpt-4", inputs := [[("payload", GoVal.unsupported)]] }

/-- The concrete response logged against `reqA`'s correlation id
(`genUUID 0`). -/
def respA : audit.Response :=
  { requestID := genUUID 0, response := [("content", GoVal.str "hello")] }

/-- The store state after logging `reqA` into the empty store. -/
def dbAfterReq : audit.DB := (audit.LogRequest paNone {} reqA).2

/-- The store state after additionally logging `respA`. -/
def dbAfterResp : audit.DB := (audit.LogResponse dbAfterReq respA).2

/-- The per-message blobs `LogRequest` stores for `reqA`. -/
def blobsA : List Json :=
  [Json.obj [("role", .str "user"), ("content", .str "hi")]]

/-- The parameter fields `LogRequest` stores for `reqA`. -/
def pfieldsA : List (String × Json) := [("temperature", .num 1)]

/-- The trace `GetTrace` reconstructs for `reqA` after `respA` is logged. -/
def traceA : audit.Trace :=
  { requestID := genUUID 0
    userID := ""
    model := "gpt-4"
    inputs := [[("role", Json.str "user"), ("content", Json.str "hi")]]
    response := [("content", Json.str "hello")]
    requestParameters := [("temperature", Json.num 1)]
    firewallInfo := []
    clientIP := ""
    riskScore := 0
    blocked := false
    blockedReason := "" }

/-- A firewall event whose risk score 2 lies outside [0,1]. -/
def feRisk2 : audit.FirewallEvent :=
  { requestID := genUUID 0
    firewallID := "NO_HATE_SPEECH"
    firewallType := "malicious_intent"
    blocked := false
    blockedReason := ""
    riskScore := 2 }

/-- A join row whose parameters blob is not a JSON object (corrupt), while
every other column decodes. -/
def rowBadParams : audit.TraceRow :=
  { requestID := genUUID 0
    userID := none
    model := "gpt-4"
    inputs := [Json.obj [("role", .str "user"), ("content", .str "hi")]]
    parameters := Json.str "corrupt"
    response := some (Json.obj [("content", .str "hello")]) }

/-- The trace `assembleTrace` reconstructs from `rowBadParams` alone. -/
def traceBadParams : audit.Trace :=
  { requestID := genUUID 0
    model := "gpt-4"
    inputs := [[("role", Json.str "user"), ("content", Json.str "hi")]]
    response := [("content", Json.str "hello")]
    requestParameters := [] }

/-- A join row whose response blob is a SQL NULL (nil bytes). -/
def rowNoResponse : audit.TraceRow :=
  { requestID := genUUID 0
    model := "gpt-4"
    inputs := [Json.obj [("role", .str "user"), ("content", .str "hi")]]
    parameters := Json.obj [("temperature", .num 1)]
    response := none }

/-! Helper lemmas shared by the claim theorems. -/

theorem marshalMap_shape {m : List (String × GoVal)} {b : Json}
    (h : marshalMap m = some b) :
    ∃ f, marshalValFields m = some f ∧ b = Json.obj f := by
  unfold marshalMap at h
  cases hf : marshalValFields m with
  | none => rw [hf] at h; simp at h
  | some f => rw [hf] at h; simp at h; exact ⟨f, rfl, h.symm⟩

theorem unmarshalMapJ_marshalMap {m : List (String × GoVal)} {b : Json}
    (h : marshalMap m = some b) :
    ∃ f, unmarshalMapJ b = some f ∧ Json.obj f = b := by
  obtain ⟨f, _, rfl⟩ := marshalMap_shape h
  exact ⟨f, rfl, rfl⟩

theorem decodeInputs_marshalInputs {l : List (List (String × GoVal))}
    {blobs : List Json} (h : audit.marshalInputs l = some blobs) :
    ∃ fs, audit.decodeInputs blobs = .ok fs ∧ fs.map Json.obj = blobs := by
  induction l generalizing blobs with
  | nil =>
    unfold audit.marshalInputs at h
    obtain rfl : [] = blobs := by simpa using h
    exact ⟨[], rfl, rfl⟩
  | cons m ms ih =>
    unfold audit.marshalInputs at h
    cases hm : marshalMap m with
    | none => rw [hm] at h; simp at h
    | some b =>
      rw [hm] at h
      cases hms : audit.marshalInputs ms with
      | none => rw [hms] at h; simp at h
      | some bs =>
        rw [hms] at h
        obtain rfl : b :: bs = blobs := by simpa using h
        obtain ⟨f, hfj, hfb⟩ := unmarshalMapJ_marshalMap hm
        obtain ⟨fs, hfs, hmapfs⟩ := ih hms
        refine ⟨f :: fs, ?_, by simp [hmapfs, hfb]⟩
        unfold audit.decodeInputs
        rw [hfj, hfs]
        rfl

theorem marshalInputs_none_of_mem {l : List (List (String × GoVal))}
    {m : List (String × GoVal)} (hm : m ∈ l) (h : marshalMap m = none) :
    audit.marshalInputs l = none := by
  induction l with
  | nil => cases hm
  | cons x xs ih =>
    unfold audit.marshalInputs
    rcases List.mem_cons.mp hm with rfl | hmem
    · rw [h]
    · cases hx : marshalMap x with
      | none => rfl
      | some b => rw [ih hmem]; rfl

theorem parseMessages_length {f : GoVal → Except String types.Message}
    {l : List GoVal} {ms : List types.Message}
    (h : requests.parseMessages f l = .ok ms) : ms.length = l.length := by
  induction l generalizing ms with
  | nil =>
    unfold requests.parseMessages at h
    obtain rfl : [] = ms := by simpa using h
    rfl
  | cons x xs ih =>
    unfold requests.parseMessages at h
    cases hx : f x with
    | error e => rw [hx] at h; simp at h
    | ok msg =>
      rw [hx] at h
      cases hxs : requests.parseMessages f xs with
      | error e => rw [hxs] at h; simp [Except.map] at h
      | ok rest =>
        rw [hxs] at h
        obtain rfl : msg :: rest = ms := by simpa [Except.map] using h
        simp [ih hxs]

theorem ParseGenerateRequest_ok_inv {c : requests.Collaborators}
    {req : requests.GenerateRequest} {p : model.GeneratePayload}
    (h : requests.ParseGenerateRequest c req = .ok p) :
    req.messages.isEmpty = false ∧
    ∃ ms, requests.parseMessages c.newMessageFromJson req.messages = .ok ms ∧
      p.messages = ms := by
  unfold requests.ParseGenerateRequest at h
  repeat' split at h
  all_goals try simp at h
  all_goals
    obtain rfl : _ = p := by simpa using h
  all_goals
    exact ⟨by simpa using ‹¬req.messages.isEmpty = true›, _, by assumption, rfl⟩

theorem Firewall_eval {p : model.GeneratePayload} (h : p.messages ≠ []) :
    hook.Firewall p = some (403, some "request rejected: blocked by firewall") := by
  obtain ⟨m, hm⟩ : ∃ m, p.messages.getLast? = some m := by
    cases hg : p.messages.getLast? with
    | none => exact absurd (List.getLast?_eq_none_iff.mp hg) h
    | some m => exact ⟨m, rfl⟩
  simp [hook.Firewall, hm, hook.checkMessage]

theorem LogRequest_ok_inv {pa : String → Option String} {db db' : audit.DB}
    {r : audit.Request} {cid : String}
    (h : audit.LogRequest pa db r = (.ok cid, db')) :
    cid = genUUID db.nextID ∧
    ∃ blobs pblob cip,
      audit.marshalInputs r.inputs = some blobs ∧
      marshalMap r.parameters = some pblob ∧
      db' = { db with
        requests := db.requests ++
          [{ requestID := genUUID db.nextID
             userID := pgUUIDScan r.userID
             apiKeyID := pgUUIDScan r.apiKeyID
             model := r.model
             targetUrl := r.targetURL
             inputs := blobs
             parameters := pblob
             clientIp := cip }]
        nextID := db.nextID + 1 } := by
  unfold audit.LogRequest at h
  split at h
  · simp at h
  · split at h
    · simp at h
    · split at h
      · simp only [Prod.mk.injEq, Except.ok.injEq] at h
        refine ⟨h.1.symm, _, _, _, ?_, ?_, h.2.symm⟩ <;> assumption
      · split at h
        · simp at h
        · simp only [Prod.mk.injEq, Except.ok.injEq] at h
          refine ⟨h.1.symm, _, _, _, ?_, ?_, h.2.symm⟩ <;> assumption

theorem LogResponse_ok_inv {db db' : audit.DB} {resp : audit.Response} {u : Unit}
    (h : audit.LogResponse db resp = (.ok u, db')) :
    ∃ blob rid,
      marshalMap resp.response = some blob ∧
      pgUUIDScan resp.requestID = some rid ∧
      db' = { db with responses := db.responses ++
        [{ requestID := rid, response := blob, latencyMs := resp.latencyMs }] } := by
  unfold audit.LogResponse at h
  split at h
  · simp at h
  · split at h
    · simp at h
    · split at h
      · simp only [Prod.mk.injEq] at h
        refine ⟨_, _, ?_, ?_, h.2.symm⟩ <;> assumption
      · simp at h

theorem decodeInputs_error_of_mem {l : List Json} {b : Json}
    (hb : b ∈ l) (h : unmarshalMapJ b = none) :
    audit.decodeInputs l = .error "invalid messages" := by
  induction l with
  | nil => cases hb
  | cons x xs ih =>
    unfold audit.decodeInputs
    rcases List.mem_cons.mp hb with rfl | hmem
    · rw [h]
    · cases hx : unmarshalMapJ x with
      | none => rfl
      | some m => rw [ih hmem]; rfl

theorem buildEvents_error_of_bad {rows : List audit.TraceRow} {r : audit.TraceRow}
    (hr : r ∈ rows) (hfid : r.firewallID.isSome)
    (hbad : r.riskScore.float64Value = none) :
    audit.buildEvents rows = .error "invalid risk score" := by
  induction rows with
  | nil => cases hr
  | cons x xs ih =>
    unfold audit.buildEvents
    rcases List.mem_cons.mp hr with rfl | hmem
    · cases hx : r.firewallID with
      | none => rw [hx] at hfid; cases hfid
      | some fid => rw [hbad]
    · cases hx : x.firewallID with
      | none => exact ih hmem
      | some fid =>
        cases hv : x.riskScore.float64Value with
        | none => rfl
        | some q => rw [ih hmem]; rfl

theorem buildEvents_cons_none {row : audit.TraceRow} {rest : List audit.TraceRow}
    (h : row.firewallID = none) :
    audit.buildEvents (row :: rest) = audit.buildEvents rest := by
  conv_lhs => rw [audit.buildEvents]
  rw [h]

theorem ParseGenerateRequest_ok_messages {c : requests.Collaborators}
    {req : requests.GenerateRequest} {p : model.GeneratePayload}
    (h : requests.ParseGenerateRequest c req = .ok p) : p.messages ≠ [] := by
  obtain ⟨hne, ms, hms, hpmsg⟩ := ParseGenerateRequest_ok_inv h
  intro hpm
  have hms0 : ms = [] := by rw [← hpmsg, hpm]
  subst hms0
  have hlen : req.messages.length = 0 := by simpa using (parseMessages_length hms).symm
  rw [List.length_eq_zero.mp hlen] at hne
  simp at hne

theorem LogRequest_error_inv {pa : String → Option String} {db db' : audit.DB}
    {r : audit.Request} {e : String}
    (h : audit.LogRequest pa db r = (.error e, db')) : db' = db := by
  unfold audit.LogRequest at h
  split at h
  · exact (Prod.mk.injEq .. ▸ h).2.symm
  · split at h
    · exact (Prod.mk.injEq .. ▸ h).2.symm
    · split at h
      · simp at h
      · split at h
        · exact (Prod.mk.injEq .. ▸ h).2.symm
        · simp at h

/-! Claim theorems. -/

/-- Claim C9: as implemented, the firewall hook blocks every payload — its
message check `checkMessage` constantly returns `false`, the malicious-intent
classifier `Run` constantly returns `(true, nil)` independent of message
content, model and blocking threshold, and `Firewall` therefore answers
HTTP 403 with reason "request rejected: blocked by firewall" for every
payload whose message list is non-empty. -/
theorem C9_hook_always_blocks :
    (∀ m, hook.checkMessage m = false) ∧
    (∀ m mo t, maliciousIntent.Run m mo t = (true, none)) ∧
    (∀ p : model.GeneratePayload, p.messages ≠ [] →
      hook.Firewall p = some (403, some "request rejected: blocked by firewall")) :=
  ⟨fun _ => rfl, fun _ _ _ => rfl, fun _ h => Firewall_eval h⟩

/-- Witness for C9 at a concrete one-message payload. -/
theorem C9_hook_always_blocks_witness :
    payloadHi.messages ≠ [] ∧
    hook.Firewall payloadHi = some (403, some "request rejected: blocked by firewall") :=
  ⟨by simp [payloadHi], C9_hook_always_blocks.2.2 payloadHi (by simp [payloadHi])⟩

/-- Claim C1 (code evaluated at the claimed scenario): the repository has no
fail-closed path — the classifier invocation `maliciousIntent.Run` never
returns an error, so no classifier invocation can fail, and the hook
`hook.Firewall` only ever produces the reason
"request rejected: blocked by firewall", never "firewall evaluation
error". -/
theorem C1_no_evaluation_error_path :
    (∀ m mo t, (maliciousIntent.Run m mo t).2 = none) ∧
    (∀ (p : model.GeneratePayload) (code : Nat) (reason : String),
      hook.Firewall p = some (code, some reason) →
      reason = "request rejected: blocked by firewall") := by
  refine ⟨fun _ _ _ => rfl, fun p code reason h => ?_⟩
  unfold hook.Firewall at h
  cases hg : p.messages.getLast? with
  | none => rw [hg] at h; cases h
  | some m =>
    rw [hg] at h
    simp [hook.checkMessage] at h
    exact h.2.symm

/-- Witness for C1 at a concrete one-message payload. -/
theorem C1_no_evaluation_error_path_witness :
    hook.Firewall payloadHi = some (403, some "request rejected: blocked by firewall") ∧
    "request rejected: blocked by firewall" = "request rejected: blocked by firewall" :=
  ⟨rfl, C1_no_evaluation_error_path.2 payloadHi 403 _ rfl⟩

/-- Claim C2 (code evaluated at the claimed scenario): the hook's outcome is
one constant independent of the payload, hence independent of any
`firewall.Config`; its signature involves no store and it appends no
`FirewallEvent`, instead of one event per enabled firewall. -/
theorem C2_hook_outcome_constant :
    ∀ p q : model.GeneratePayload, p.messages ≠ [] → q.messages ≠ [] →
      hook.Firewall p = hook.Firewall q := by
  intro p q hp hq
  rw [Firewall_eval hp, Firewall_eval hq]

/-- Witness for C2 at two concrete payloads with different content. -/
theorem C2_hook_outcome_constant_witness :
    payloadHi.messages ≠ [] ∧ payloadBye.messages ≠ [] ∧
    hook.Firewall payloadHi = hook.Firewall payloadBye :=
  ⟨by simp [payloadHi], by simp [payloadBye],
    C2_hook_outcome_constant payloadHi payloadBye
      (by simp [payloadHi]) (by simp [payloadBye])⟩

/-- Claim C7: a request whose messages array is empty fails validation with
an error, and every successfully validated payload has a non-empty message
list. -/
theorem C7_empty_messages_rejected (c : requests.Collaborators)
    (req : requests.GenerateRequest) :
    (req.messages = [] → (requests.ParseGenerateRequest c req).isOk = false) ∧
    (∀ p, requests.ParseGenerateRequest c req = .ok p → p.messages ≠ []) := by
  constructor
  · intro he
    cases hp : requests.ParseGenerateRequest c req with
    | error e => rfl
    | ok p =>
      have hne := (ParseGenerateRequest_ok_inv hp).1
      rw [he] at hne
      simp at hne
  · exact fun p hp => ParseGenerateRequest_ok_messages hp

/-- Witness for C7: the empty-messages request is rejected, and a concrete
one-message request validates into a payload with a non-empty list. -/
theorem C7_empty_messages_rejected_witness :
    (requests.ParseGenerateRequest collabOk genReqEmpty).isOk = false ∧
    (requests.ParseGenerateRequest collabOk genReq1 = .ok payload1 ∧
      payload1.messages ≠ []) :=
  ⟨(C7_empty_messages_rejected collabOk genReqEmpty).1 rfl,
    rfl, (C7_empty_messages_rejected collabOk genReq1).2 payload1 rfl⟩

/-- Claim C10: the hook reads the last message without a bounds check
(`none` models the index-out-of-range panic); for every payload produced by
a successful `ParseGenerateRequest` the message list is non-empty, so the
access is total and the panic branch unreachable. -/
theorem C10_last_message_access_total (c : requests.Collaborators)
    (req : requests.GenerateRequest) (p : model.GeneratePayload)
    (h : requests.ParseGenerateRequest c req = .ok p) :
    p.messages ≠ [] ∧ (hook.Firewall p).isSome = true := by
  have hne := ParseGenerateRequest_ok_messages h
  exact ⟨hne, by rw [Firewall_eval hne]; rfl⟩

/-- Witness for C10 at a concrete validated request. -/
theorem C10_last_message_access_total_witness :
    requests.ParseGenerateRequest collabOk genReq1 = .ok payload1 ∧
    (payload1.messages ≠ [] ∧ (hook.Firewall payload1).isSome = true) :=
  ⟨rfl, C10_last_message_access_total collabOk genReq1 payload1 rfl⟩

/-- Claim C4 (code evaluated at the failing input): `LogFirewallEvent`
performs no risk-score range validation — an event with risk score 2,
outside [0,1], is accepted and its row inserted. -/
theorem C4_out_of_range_risk_inserted :
    ¬(feRisk2.riskScore ≤ 1) ∧
    audit.LogFirewallEvent dbWithReq feRisk2 =
      (.ok (), { dbWithReq with events :=
        [{ requestID := genUUID 0
           firewallID := "NO_HATE_SPEECH"
           firewallType := "malicious_intent"
           blocked := false
           blockedReason := ""
           riskScore := .val 2 }] }) :=
  ⟨by norm_num [feRisk2], rfl⟩

/-- Claim C5 (code evaluated at the failing input): on a store holding a
logged request and no response, `GetTrace` at that correlation id unmarshals
the NULL response blob and fails with "invalid response" instead of
returning a pending trace. -/
theorem C5_pending_response_errors :
    dbWithReq.requests = [reqRow1] ∧ reqRow1.requestID = genUUID 0 ∧
    dbWithReq.responses = [] ∧
    audit.GetTrace dbWithReq (genUUID 0) = .error "invalid response" :=
  ⟨rfl, rfl, rfl, rfl⟩

/-- Claim C8: `LogRequest` is atomic — on success it returns the generated
correlation id and appends exactly one request row, leaving responses and
events untouched; on any failure (a message that does not serialize, a
parameters map that does not serialize, or a non-empty client IP that does
not parse) it returns an error and leaves the store exactly as it was. -/
theorem C8_logrequest_atomic (pa : String → Option String) (db : audit.DB)
    (r : audit.Request) :
    (∀ cid db', audit.LogRequest pa db r = (.ok cid, db') →
      cid = genUUID db.nextID ∧
      ∃ row : audit.RequestRow, row.requestID = cid ∧
        db' = { db with requests := db.requests ++ [row], nextID := db.nextID + 1 }) ∧
    ((audit.LogRequest pa db r).1.isOk = false → (audit.LogRequest pa db r).2 = db) ∧
    ((∃ m ∈ r.inputs, marshalMap m = none) →
      (audit.LogRequest pa db r).1 = .error "invalid messages") ∧
    (marshalMap r.parameters = none → (audit.LogRequest pa db r).1.isOk = false) ∧
    (r.clientIP ≠ "" → pa r.clientIP = none →
      (audit.LogRequest pa db r).1.isOk = false) := by
  refine ⟨?_, ?_, ?_, ?_, ?_⟩
  · intro cid db' h
    obtain ⟨hcid, blobs, pblob, cip, hin, hpar, hdb⟩ := LogRequest_ok_inv h
    subst hcid
    exact ⟨rfl, _, rfl, hdb⟩
  · intro hko
    rcases hres : audit.LogRequest pa db r with ⟨res, db'⟩
    cases res with
    | ok cid => rw [hres] at hko; simp [Except.isOk, Except.toBool] at hko
    | error e => simpa using LogRequest_error_inv hres
  · rintro ⟨m, hm, hmar⟩
    unfold audit.LogRequest
    rw [marshalInputs_none_of_mem hm hmar]
  · intro hp
    unfold audit.LogRequest
    cases h1 : audit.marshalInputs r.inputs with
    | none => rfl
    | some blobs => rw [hp]; rfl
  · intro hnip hpa
    unfold audit.LogRequest
    cases h1 : audit.marshalInputs r.inputs with
    | none => rfl
    | some blobs =>
      cases h2 : marshalMap r.parameters with
      | none => rfl
      | some pblob => rw [if_neg hnip, hpa]; rfl

/-- Witness for C8: a request whose message map holds an unencodable value
is rejected with "invalid messages" and the empty store stays empty. -/
theorem C8_logrequest_atomic_witness :
    (audit.LogRequest paNone {} reqBadInput).1 = .error "invalid messages" ∧
    (audit.LogRequest paNone {} reqBadInput).2 = ({} : audit.DB) :=
  ⟨(C8_logrequest_atomic paNone {} reqBadInput).2.2.1
      ⟨[("payload", GoVal.unsupported)], by simp [reqBadInput], rfl⟩,
    (C8_logrequest_atomic paNone {} reqBadInput).2.1 rfl⟩

/-- Claim C6: within `GetTrace`'s decode operations, the parameters decode
is the only swallowed failure — an undecodable parameters blob still yields
a successful trace whose parameters are the empty mapping — while a decode
failure of any input blob, of the response blob, or of a risk score (on the
representative row or on any firewall-event row) fails the whole
operation. -/
theorem C6_parameters_only_swallowed_decode :
    (∀ db id, audit.GetTrace db id =
      audit.assembleTrace (audit.getRequestFullTrace db ((pgUUIDScan id).getD ""))) ∧
    (∀ (row : audit.TraceRow) (rest : List audit.TraceRow) fs rf rk es,
      unmarshalMapJ row.parameters = none →
      audit.decodeInputs row.inputs = .ok fs →
      unmarshalMapB row.response = some rf →
      audit.topRiskScore row.riskScore = .ok rk →
      audit.buildEvents (row :: rest) = .ok es →
      audit.assembleTrace (row :: rest) =
        .ok { requestID := row.requestID
              userID := row.userID.getD ""
              model := row.model
              inputs := fs
              response := rf
              requestParameters := []
              firewallInfo := es
              clientIP := row.clientIp.getD ""
              riskScore := rk
              blocked := row.blocked
              blockedReason := row.blockedReason }) ∧
    (∀ (row : audit.TraceRow) rest, (∃ b ∈ row.inputs, unmarshalMapJ b = none) →
      (audit.assembleTrace (row :: rest)).isOk = false) ∧
    (∀ (row : audit.TraceRow) rest, unmarshalMapB row.response = none →
      (audit.assembleTrace (row :: rest)).isOk = false) ∧
    (∀ (row : audit.TraceRow) rest, row.riskScore = audit.PgNumeric.bad →
      (audit.assembleTrace (row :: rest)).isOk = false) ∧
    (∀ rows (r : audit.TraceRow), r ∈ rows → r.firewallID.isSome →
      r.riskScore = audit.PgNumeric.bad →
      (audit.assembleTrace rows).isOk = false) := by
  refine ⟨fun _ _ => rfl, ?_, ?_, ?_, ?_, ?_⟩
  · intro row rest fs rf rk es hp hdi hrb hrk hes
    simp only [audit.assembleTrace, hdi, hrb, hrk, hes, hp, Option.getD_none]
  · rintro row rest ⟨b, hb, hbad⟩
    simp only [audit.assembleTrace, decodeInputs_error_of_mem hb hbad, Except.isOk, Except.toBool]
  · intro row rest hrb
    cases hdi : audit.decodeInputs row.inputs with
    | error e => simp only [audit.assembleTrace, hdi, Except.isOk, Except.toBool]
    | ok fs => simp only [audit.assembleTrace, hdi, hrb, Except.isOk, Except.toBool]
  · intro row rest hbad
    have hrk : audit.topRiskScore row.riskScore = .error "invalid risk score" := by
      rw [hbad]; rfl
    cases hdi : audit.decodeInputs row.inputs with
    | error e => simp only [audit.assembleTrace, hdi, Except.isOk, Except.toBool]
    | ok fs =>
      cases hrb : unmarshalMapB row.response with
      | none => simp only [audit.assembleTrace, hdi, hrb, Except.isOk, Except.toBool]
      | some rf => simp only [audit.assembleTrace, hdi, hrb, hrk, Except.isOk, Except.toBool]
  · intro rows r hr hfid hbad
    cases rows with
    | nil => cases hr
    | cons row rest =>
      have hbe : audit.buildEvents (row :: rest) = .error "invalid risk score" :=
        buildEvents_error_of_bad hr hfid (by rw [hbad]; rfl)
      cases hdi : audit.decodeInputs row.inputs with
      | error e => simp only [audit.assembleTrace, hdi, Except.isOk, Except.toBool]
      | ok fs =>
        cases hrb : unmarshalMapB row.response with
        | none => simp only [audit.assembleTrace, hdi, hrb, Except.isOk, Except.toBool]
        | some rf =>
          cases hrk : audit.topRiskScore row.riskScore with
          | error e => simp only [audit.assembleTrace, hdi, hrb, hrk, Except.isOk, Except.toBool]
          | ok rk => simp only [audit.assembleTrace, hdi, hrb, hrk, hbe, Except.isOk, Except.toBool]

/-- Witness for C6: a corrupt parameters blob still yields a trace with
empty parameters, while a missing response blob fails the assembly. -/
theorem C6_parameters_only_swallowed_decode_witness :
    unmarshalMapJ rowBadParams.parameters = none ∧
    audit.assembleTrace [rowBadParams] = .ok traceBadParams ∧
    (audit.assembleTrace [rowNoResponse]).isOk = false :=
  ⟨rfl,
    C6_parameters_only_swallowed_decode.2.1 rowBadParams []
      [[("role", Json.str "user"), ("content", Json.str "hi")]]
      [("content", Json.str "hello")] 0 [] rfl rfl rfl rfl rfl,
    C6_parameters_only_swallowed_decode.2.2.2.1 rowNoResponse [] rfl⟩

/-- Counterexample to C3 as stated: for a well-formed payload, `LogRequest`
immediately followed by `GetTrace` on the returned correlation id does not
yield a Trace at all — with no Response logged yet, `GetTrace` unmarshals
the NULL response blob and fails with "invalid response". -/
theorem C3_counterexample_roundtrip_without_response :
    (audit.LogRequest paNone {} reqA).1 = .ok (genUUID 0) ∧
    audit.GetTrace dbAfterReq (genUUID 0) = .error "invalid response" :=
  ⟨rfl, rfl⟩

/-- Claim C3 (amended): after `LogRequest` and a subsequent `LogResponse`
for the returned correlation id, `GetTrace` yields a Trace whose model,
inputs and parameters are structurally JSON-equal to the logged request's —
the trace's decoded inputs re-encode to exactly the stored per-message
blobs, and its parameters are exactly the fields of the logged parameters
map.  The freshness hypotheses mirror the database's uniqueness guarantee
for generated correlation ids. -/
theorem C3_roundtrip_after_response
    (pa : String → Option String) (db db₁ db₂ : audit.DB)
    (r : audit.Request) (resp : audit.Response) (cid : String)
    (blobs : List Json) (pfields : List (String × Json))
    (hfq : ∀ q ∈ db.requests, q.requestID ≠ genUUID db.nextID)
    (hfs : ∀ s ∈ db.responses, s.requestID ≠ genUUID db.nextID)
    (hfe : ∀ e ∈ db.events, e.requestID ≠ genUUID db.nextID)
    (hin : audit.marshalInputs r.inputs = some blobs)
    (hpar : marshalValFields r.parameters = some pfields)
    (hlog : audit.LogRequest pa db r = (.ok cid, db₁))
    (hrid : resp.requestID = cid)
    (hresp : audit.LogResponse db₁ resp = (.ok (), db₂)) :
    (audit.GetTrace db₂ cid).isOk = true ∧
    ∀ t, audit.GetTrace db₂ cid = .ok t →
      t.model = r.model ∧ t.inputs.map Json.obj = blobs ∧
      t.requestParameters = pfields := by
  obtain ⟨hcid, blobs', pblob, cip, hin', hpar', hdb₁⟩ := LogRequest_ok_inv hlog
  rw [hin] at hin'
  obtain rfl : blobs = blobs' := Option.some.inj hin'
  have hpb : pblob = Json.obj pfields := by
    unfold marshalMap at hpar'
    rw [hpar] at hpar'
    exact (Option.some.inj hpar').symm
  subst hpb
  subst hcid
  obtain ⟨rblob, rrid, hrm, hru, hdb₂⟩ := LogResponse_ok_inv hresp
  rw [hrid, pgUUIDScan_genUUID] at hru
  obtain rfl : genUUID db.nextID = rrid := Option.some.inj hru
  obtain ⟨rf, hrfj, hrfb⟩ := unmarshalMapJ_marshalMap hrm
  obtain ⟨fs, hdec, hmapfs⟩ := decodeInputs_marshalInputs hin
  have hreq : db₂.requests = db.requests ++
      [{ requestID := genUUID db.nextID
         userID := pgUUIDScan r.userID
         apiKeyID := pgUUIDScan r.apiKeyID
         model := r.model
         targetUrl := r.targetURL
         inputs := blobs
         parameters := Json.obj pfields
         clientIp := cip }] := by
    rw [hdb₂, hdb₁]
  have hresps : db₂.responses = db.responses ++
      [{ requestID := genUUID db.nextID
         response := rblob
         latencyMs := resp.latencyMs }] := by
    rw [hdb₂, hdb₁]
  have hevs : db₂.events = db.events := by
    rw [hdb₂, hdb₁]
  have hfind : List.find?
      (fun x : audit.RequestRow => x.requestID == genUUID db.nextID)
      (db.requests ++
        [{ requestID := genUUID db.nextID
           userID := pgUUIDScan r.userID
           apiKeyID := pgUUIDScan r.apiKeyID
           model := r.model
           targetUrl := r.targetURL
           inputs := blobs
           parameters := Json.obj pfields
           clientIp := cip }]) = some
        { requestID := genUUID db.nextID
          userID := pgUUIDScan r.userID
          apiKeyID := pgUUIDScan r.apiKeyID
          model := r.model
          targetUrl := r.targetURL
          inputs := blobs
          parameters := Json.obj pfields
          clientIp := cip } := by
    have h1 : List.find?
        (fun x : audit.RequestRow => x.requestID == genUUID db.nextID)
        db.requests = none :=
      List.find?_eq_none.mpr (fun x hx => by simp [hfq x hx])
    rw [List.find?_append, h1, Option.none_or]
    simp [List.find?]
  have hfindr : List.find?
      (fun x : audit.ResponseRow => x.requestID == genUUID db.nextID)
      (db.responses ++
        [{ requestID := genUUID db.nextID
           response := rblob
           latencyMs := resp.latencyMs }]) = some
        { requestID := genUUID db.nextID
          response := rblob
          latencyMs := resp.latencyMs } := by
    have h1 : List.find?
        (fun x : audit.ResponseRow => x.requestID == genUUID db.nextID)
        db.responses = none :=
      List.find?_eq_none.mpr (fun x hx => by simp [hfs x hx])
    rw [List.find?_append, h1, Option.none_or]
    simp [List.find?]
  have hfilt : List.filter
      (fun x : audit.FirewallEventRow => x.requestID == genUUID db.nextID)
      db.events = [] :=
    List.filter_eq_nil_iff.mpr (fun x hx => by simp [hfe x hx])
  have hrows : audit.getRequestFullTrace db₂ (genUUID db.nextID) =
      [audit.joinRow
        { requestID := genUUID db.nextID
          userID := pgUUIDScan r.userID
          apiKeyID := pgUUIDScan r.apiKeyID
          model := r.model
          targetUrl := r.targetURL
          inputs := blobs
          parameters := Json.obj pfields
          clientIp := cip }
        (some { requestID := genUUID db.nextID
                response := rblob
                latencyMs := resp.latencyMs })
        none] := by
    unfold audit.getRequestFullTrace
    rw [hreq, hresps, hevs, hfind, hfindr, hfilt]
  have hasm : audit.assembleTrace
      [audit.joinRow
        { requestID := genUUID db.nextID
          userID := pgUUIDScan r.userID
          apiKeyID := pgUUIDScan r.apiKeyID
          model := r.model
          targetUrl := r.targetURL
          inputs := blobs
          parameters := Json.obj pfields
          clientIp := cip }
        (some { requestID := genUUID db.nextID
                response := rblob
                latencyMs := resp.latencyMs })
        none] = .ok
        { requestID := genUUID db.nextID
          userID := (pgUUIDScan r.userID).getD ""
          model := r.model
          inputs := fs
          response := rf
          requestParameters := pfields
          firewallInfo := []
          clientIP := cip.getD ""
          riskScore := 0
          blocked := false
          blockedReason := "" } := by
    simp only [audit.assembleTrace, audit.joinRow, Option.map, Option.getD, hdec]
    rw [← hrfb]
    simp only [unmarshalMapB, unmarshalMapJ, audit.topRiskScore,
      audit.PgNumeric.isValid, audit.buildEvents, audit.PgNumeric.float64Value]
    rfl
  have hGT : audit.GetTrace db₂ (genUUID db.nextID) = .ok
      { requestID := genUUID db.nextID
        userID := (pgUUIDScan r.userID).getD ""
        model := r.model
        inputs := fs
        response := rf
        requestParameters := pfields
        firewallInfo := []
        clientIP := cip.getD ""
        riskScore := 0
        blocked := false
        blockedReason := "" } := by
    simp only [audit.GetTrace]
    rw [pgUUIDScan_genUUID]
    simp only [Option.getD]
    rw [hrows, hasm]
    rfl
  refine ⟨by rw [hGT]; rfl, fun t ht => ?_⟩
  rw [hGT] at ht
  obtain rfl := Except.ok.inj ht
  exact ⟨rfl, hmapfs, rfl⟩

/-- Witness for the amended C3: the response-completed roundtrip at the
concrete request `reqA` reproduces model, inputs and parameters. -/
theorem C3_roundtrip_after_response_witness :
    audit.GetTrace dbAfterResp (genUUID 0) = .ok traceA ∧
    (audit.GetTrace dbAfterResp (genUUID 0)).isOk = true ∧
    (traceA.model = reqA.model ∧ traceA.inputs.map Json.obj = blobsA ∧
      traceA.requestParameters = pfieldsA) :=
  ⟨rfl,
    (C3_roundtrip_after_response paNone {} dbAfterReq dbAfterResp reqA respA
      (genUUID 0) blobsA pfieldsA (by simp) (by simp) (by simp)
      rfl rfl rfl rfl rfl).1,
    (C3_roundtrip_after_response paNone {} dbAfterReq dbAfterResp reqA respA
      (genUUID 0) blobsA pfieldsA (by simp) (by simp) (by simp)
      rfl rfl rfl rfl rfl).2 traceA rfl⟩

end Netrunner
